import Mathlib

/-!
Shallow embedding of `tacho.py` (martinus/tacho), a benchmarking tool that
runs a command repeatedly under `perf stat`, aggregates per-run metric values
and renders terminal statistics.  Python floats are modelled as exact
rationals (`ℚ`); Python ints as `ℤ`/`ℕ`; code paths that raise a runtime
exception (ZeroDivisionError, NameError, aggregation faults) are modelled by
`Option`, with `none` standing for the raised exception.
-/

namespace Tacho

/-- Embeds the dataclass `Measurement` (tacho.py lines 87-91): a metric
`name`, the list of `values` accumulated so far (floats, modelled as `ℚ`),
and a `unit` string (default `""`). -/
structure Measurement where
  name : String
  values : List ℚ
  unit : String := ""
  deriving Repr, DecidableEq

/-- State-passing embedding of `integrate_measures` (tacho.py lines 152-154):
`for t, n in zip(totals, new_run): t.values += n.values`.  Python `zip`
truncates to the shorter of the two lists and the loop mutates the zipped
elements of `totals` in place; the elements of `totals` beyond the length of
`new_run` are untouched, and `totals` keeps its length.  The returned list is
the post-call state of `totals`. -/
def integrate_measures (totals new_run : List Measurement) : List Measurement :=
  List.zipWith (fun t n => { t with values := t.values ++ n.values }) totals new_run
    ++ totals.drop new_run.length

/-- Embeds `clamp` (tacho.py lines 157-158): `max(lo, min(value, hi))`. -/
def clamp (value lo hi : ℤ) : ℤ :=
  max lo (min value hi)

/-- Python `int()` applied to a float/rational: truncation toward zero.
On a reduced fraction `num/den` (with `den > 0`) this is `num.tdiv den`,
`Int.tdiv` being truncating division. -/
def pyInt (q : ℚ) : ℤ :=
  q.num.tdiv q.den

/-- Embeds `sys.maxsize` on a 64-bit platform, the default of `--max-runs`
(tacho.py line 52). -/
def sys_maxsize : ℤ :=
  2 ^ 63 - 1

/-- Embeds the run-count planning step of `measure` (tacho.py lines 466-472):
`num_runs = clamp(int(args.total_seconds / measured_runtime), args.min_runs - 1,
args.max_runs)`, then `if args.runs: num_runs = args.runs - 1`.  The division
is executed unconditionally, so a zero `measured_runtime` raises
ZeroDivisionError (modelled as `none`).  `args.runs` is `None` when the flag
is absent, and Python truthiness makes an explicit `0` fall back to the
estimate as well. -/
def num_runs_plan (total_seconds measured_runtime : ℚ) (min_runs max_runs : ℤ)
    (runs : Option ℤ) : Option ℤ :=
  if measured_runtime = 0 then none
  else
    let estimate := clamp (pyInt (total_seconds / measured_runtime))
      (min_runs - 1) max_runs
    some (match runs with
      | some r => if r = 0 then estimate else r - 1
      | none => estimate)

/-- Embeds the measuring loop and final render of `measure` (tacho.py lines
474-498): `for r in range(num_runs):` integrates one fresh perf run per
iteration (`new_runs i` is the parsed output of the i-th extra run), and after
the loop the final render reads the loop variable `r` (`r=r + 1` on line 493).
When `range(num_runs)` is empty the name `r` was never bound and Python raises
NameError, modelled as `none`.  On success the result is the final cumulative
measurements paired with the number of additional measured executions. -/
def measure_tail (measures : List Measurement) (new_runs : ℕ → List Measurement)
    (num_runs : ℤ) : Option (List Measurement × ℕ) :=
  let n := num_runs.toNat
  if n = 0 then none
  else some ((List.range n).foldl (fun acc i => integrate_measures acc (new_runs i)) measures, n)

/-- Mathematical floor of a rational, written on the normalized
numerator/denominator pair so that it evaluates by kernel reduction
(`Int.fdiv` rounds toward negative infinity and the denominator is
positive). -/
def floorQ (q : ℚ) : ℤ :=
  q.num.fdiv q.den

/-- Python `round()` on a float/rational: round half to even (banker's
rounding), the semantics of Python 3 `round`. -/
def pyRound (q : ℚ) : ℤ :=
  let f := floorQ q
  if q - f < 1 / 2 then f
  else if (1 : ℚ) / 2 < q - f then f + 1
  else if f % 2 = 0 then f else f + 1

/-- Python format `f"{n:02}"`: decimal digits, left-padded with zeros to at
least width 2. -/
def pad2 (n : ℤ) : String :=
  let s := toString n
  if s.length < 2 then "0" ++ s else s

/-- Integer part of `eta` (tacho.py lines 297-315): greedy `divmod`
decomposition of a whole number of seconds with the fixed constants
year = 31556952 s, month = 2629746 s, day = 86400 s, hour = 3600 s,
minute = 60 s, then cascading-visibility string assembly.  Python `divmod`
on ints is floor division and remainder, `Int.fdiv`/`Int.fmod` here. -/
def etaInt (t0 : ℤ) (pre_num post_num : String) : String :=
  let years := t0.fdiv 31556952
  let t1 := t0.fmod 31556952
  let months := t1.fdiv 2629746
  let t2 := t1.fmod 2629746
  let days := t2.fdiv 86400
  let t3 := t2.fmod 86400
  let hours := t3.fdiv 3600
  let t4 := t3.fmod 3600
  let minutes := t4.fdiv 60
  let secs := t4.fmod 60
  let out0 : String := ""
  let out1 := if years > 0 then out0 ++ pre_num ++ toString years ++ post_num ++ "Y "
    else out0
  let out2 := if out1.length ≠ 0 ∨ months > 0 then
    out1 ++ pre_num ++ toString months ++ post_num ++ "M " else out1
  let out3 := if out2.length ≠ 0 ∨ days > 0 then
    out2 ++ pre_num ++ toString days ++ post_num ++ "D " else out2
  let out4 := if out3.length ≠ 0 ∨ hours > 0 then
    out3 ++ pre_num ++ toString hours ++ post_num ++ ":" else out3
  out4 ++ pre_num ++ pad2 minutes ++ post_num ++ ":" ++ pre_num ++ pad2 secs ++ post_num

/-- Embeds `eta` (tacho.py lines 291-315): `t = round(seconds)` followed by
the greedy decomposition and formatting of `etaInt`.  The Python defaults are
`pre_num=""`, `post_num=""`. -/
def eta (seconds : ℚ) (pre_num post_num : String) : String :=
  etaInt (pyRound seconds) pre_num post_num

/-- Python `str.split(sep)` for a single-character separator: splits at every
occurrence, keeping empty pieces (`"".split(",") == [""]`,
`",".split(",") == ["", ""]`). -/
def splitByChar (sep : Char) : List Char → List (List Char)
  | [] => [[]]
  | c :: r =>
    if c = sep then [] :: splitByChar sep r
    else
      match splitByChar sep r with
      | [] => [[c]]
      | g :: gs => (c :: g) :: gs

/-- Python `str.splitlines()` restricted to `\n` separators: like splitting
on `\n` but without a trailing empty piece (`"a\nb\n".splitlines() ==
["a", "b"]`, `"".splitlines() == []`). -/
def pySplitlines (text : List Char) : List (List Char) :=
  let gs := splitByChar (Char.ofNat 10) text
  if gs.getLast? = some [] then gs.dropLast else gs

/-- Python `str.strip()` on the characters of a string: drop whitespace from
both ends. -/
def pyStrip (l : List Char) : List Char :=
  ((l.dropWhile Char.isWhitespace).reverse.dropWhile Char.isWhitespace).reverse

/-- Decimal value of a digit string. -/
def digitsVal (l : List Char) : ℕ :=
  l.foldl (fun a c => a * 10 + (c.toNat - 48)) 0

/-- Split a character list at the first character satisfying `p`: the part
before it, and (when found) the part after it. -/
def splitOnFirst (p : Char → Bool) : List Char → List Char × Option (List Char)
  | [] => ([], none)
  | c :: r =>
    if p c then ([], some r)
    else
      let (a, b) := splitOnFirst p r
      (c :: a, b)

/-- Python `float()` on decimal literals, modelled exactly over `ℚ`:
optional surrounding whitespace, optional sign, integer and/or fraction
digits, optional signed exponent.  Lines such as `"<not counted>"` fail
(Python ValueError, modelled as `none`).  The special spellings
`inf`/`nan` and digit-group underscores are not modelled; `perf stat`
never emits them as counter values. -/
def pyFloat (s : List Char) : Option ℚ :=
  let t0 := pyStrip s
  let (neg, t1) : Bool × List Char :=
    match t0 with
    | '+' :: r => (false, r)
    | '-' :: r => (true, r)
    | r => (false, r)
  let (mant, expo) := splitOnFirst (fun c => c == 'e' || c == 'E') t1
  let (ip, fpOpt) := splitOnFirst (fun c => c == '.') mant
  let fp := fpOpt.getD []
  if ip.all Char.isDigit && fp.all Char.isDigit && !(ip.isEmpty && fp.isEmpty) then
    let mantNum : ℤ :=
      (if neg then -1 else 1) * Int.ofNat (digitsVal ip * 10 ^ fp.length + digitsVal fp)
    let mantDen : ℕ := 10 ^ fp.length
    match expo with
    | none => some (Rat.divInt mantNum (Int.ofNat mantDen))
    | some e =>
      let (eneg, ed) : Bool × List Char :=
        match e with
        | '+' :: r => (false, r)
        | '-' :: r => (true, r)
        | r => (false, r)
      if !ed.isEmpty && ed.all Char.isDigit then
        if eneg then some (Rat.divInt mantNum (Int.ofNat (mantDen * 10 ^ digitsVal ed)))
        else some (Rat.divInt (mantNum * Int.ofNat (10 ^ digitsVal ed)) (Int.ofNat mantDen))
      else none
  else none

/-- Embeds the loop body of `parse_perf_stat_csv` (tacho.py lines 104-125)
for one report line: skip lines shorter than 3 characters or starting with
`#`; split on the separator; require more than 3 fields with non-empty
fields 0 and 2; parse field 0 as a float (parse failure skips the line);
build the Measurement with name = field 2 and unit = field 1; an empty unit
on the `duration_time` event becomes `"ns"`; a `"ns"` unit is relabelled
`"s"` with the value divided by 1e9, a `"msec"` unit is relabelled `"s"`
with the value divided by 1e3. -/
def parse_line (sep : Char) (line : List Char) : Option Measurement :=
  if line.length < 3 then none
  else if line.headD ' ' = '#' then none
  else
    let l := splitByChar sep line
    if 3 < l.length ∧ (l.getD 0 []).length ≠ 0 ∧ (l.getD 2 []).length ≠ 0 then
      match pyFloat (l.getD 0 []) with
      | none => none
      | some v =>
        let m0 : Measurement := ⟨String.mk (l.getD 2 []), [v], String.mk (l.getD 1 [])⟩
        let m1 := if m0.name = "duration_time" ∧ m0.unit = "" then { m0 with unit := "ns" }
          else m0
        let m2 :=
          if m1.unit = "ns" then { m1 with unit := "s", values := [v / 10 ^ 9] }
          else if m1.unit = "msec" then { m1 with unit := "s", values := [v / 10 ^ 3] }
          else m1
        some m2
    else none

/-- Embeds `parse_perf_stat_csv` (tacho.py lines 94-127): parse every report
line, collecting the successfully parsed measurements in input order.  The
Python default separator is `","`. -/
def parse_perf_stat_csv (text : String) (sep : Char) : List Measurement :=
  (pySplitlines text.data).filterMap (parse_line sep)

/-- Embeds the `metric` table built in `metric_prefix` (tacho.py lines
216-229): the prefixes T, G, M, k, "" with powers 10^12 down to 10^0, extended
with m, µ, n, p (powers 10^-3 down to 10^-12) when `use_below_1` holds.  The
sub-1 powers are Python float literals `10**-3` etc., modelled as exact
rationals. -/
def metric_list (use_below_1 : Bool) : List (String × ℚ) :=
  [("T", 10 ^ 12), ("G", 10 ^ 9), ("M", 10 ^ 6), ("k", 10 ^ 3), ("", 10 ^ 0)]
    ++ (if use_below_1 then
      [("m", 1 / 10 ^ 3), ("µ", 1 / 10 ^ 6), ("n", 1 / 10 ^ 9), ("p", 1 / 10 ^ 12)]
    else [])

/-- Embeds the selection loop of `metric_prefix` (tacho.py lines 231-236):
return the first `(prefix, power)` in the table with `value / power` strictly
between 1 and 1000, else `("", 1)`. -/
def metric_first (value : ℚ) : List (String × ℚ) → String × ℚ
  | [] => ("", 1)
  | pr :: rest =>
    if 1 < value / pr.2 ∧ value / pr.2 < 1000 then pr else metric_first value rest

/-- Embeds `metric_prefix` (tacho.py lines 215-236); renamed `metric_scale`
here.  The Python default is `use_below_1=True`. -/
def metric_scale (value : ℚ) (use_below_1 : Bool) : String × ℚ :=
  metric_first value (metric_list use_below_1)

/-- Embeds the `use_below_1 = len(unit) != 0` computation of `format_stat`
(tacho.py line 248): count metrics (empty unit) never get sub-1 prefixes. -/
def format_use_below_1 (unit : String) : Bool :=
  unit.length != 0

/-- The scaling bound of `metric_prefix`: `value / power` lies strictly
inside `(1, 1000)`. -/
def inB (value power : ℚ) : Prop :=
  1 < value / power ∧ value / power < 1000

/-- Embeds the `ProgressBar` class (tacho.py lines 326-345).  Python field
names are kept with `prefix`/`postfix` spelled `style`: `left_style` is
`left_prefix`, `right_style` is `right_prefix`, `finished_style` is
`finished_prefix` and `end_style` is `postfix`.  The progress glyph ramps are
lists of single characters, the fills single characters, matching every
preset in the source. -/
structure ProgressBar where
  left_style : String
  left_progress : List Char
  left_fill : Char
  right_style : String
  right_progress : List Char
  right_fill : Char
  finished_style : String
  end_style : String

/-- Embeds `ProgressBar._calc_num_full_and_progress_idx` (tacho.py lines
347-351): `divmod(int(round(progress_01 * (width * num_progress))),
num_progress)`; Python `divmod` on ints is floor division with remainder. -/
def calc_num_full_and_progress_idx (progress_01 : ℚ) (width : ℕ)
    (num_progress : ℕ) : ℤ × ℤ :=
  let ticks : ℤ := pyRound (progress_01 * (width * num_progress))
  (ticks.fdiv num_progress, ticks.fmod num_progress)

/-- The glyph part of `ProgressBar.render` (tacho.py lines 360-379) for the
interpolating case `0 ≤ p < 1`: builds `pb_left` (full glyphs plus one
left-ramp sub-glyph if room remains) and `pb_right` (one right-ramp sub-glyph
if room remains, padded with the right fill glyph).  List indexing uses a
default character, unreachable for the source's non-empty glyph ramps (Python
would raise IndexError). -/
def render_body (b : ProgressBar) (p : ℚ) (width : ℕ) : List Char × List Char :=
  let nfs := calc_num_full_and_progress_idx p width b.left_progress.length
  let pb_left0 : List Char := List.replicate nfs.1.toNat b.left_fill
  let pb_left := if pb_left0.length < width
    then pb_left0 ++ [b.left_progress.getD nfs.2.toNat ' '] else pb_left0
  let pb_right0 : List Char :=
    if pb_left.length < width then
      [b.right_progress.getD
        (calc_num_full_and_progress_idx p width b.right_progress.length).2.toNat ' ']
    else []
  let total_length := pb_left.length + pb_right0.length
  let pb_right := if total_length < width
    then pb_right0 ++ List.replicate (width - total_length) b.right_fill else pb_right0
  (pb_left, pb_right)

/-- Embeds `ProgressBar.render` (tacho.py lines 353-383): clamp `progress_01`
at 0, return the fully filled bar in the finished style for `progress_01 ≥ 1`,
otherwise assemble styles and the interpolated glyph parts.  The Python
default width is 80. -/
def ProgressBar.render (b : ProgressBar) (progress_01 : ℚ) (width : ℕ) : String :=
  let p := if progress_01 ≤ 0 then 0 else progress_01
  if 1 ≤ p then
    b.finished_style ++ String.mk (List.replicate width b.left_fill) ++ b.end_style
  else
    let lr := render_body b p width
    b.left_style ++ String.mk lr.1 ++ b.right_style ++ String.mk lr.2 ++ b.end_style

/-- Embeds `ProgressBars.standard` (tacho.py line 387), the `ProgressBar()`
defaults of lines 327-336: bold-yellow left, normal-blue right, bold-green
finished, reset afterwards. -/
def ProgressBars.standard : ProgressBar where
  left_style := "\x1b[1;33m"
  left_progress := ['╸', '━']
  left_fill := '━'
  right_style := "\x1b[0;34m"
  right_progress := ['─', '╶']
  right_fill := '─'
  finished_style := "\x1b[1;32m"
  end_style := "\x1b[0m"

/-- Embeds `ProgressBars.no_color` (tacho.py lines 389-391): the default
glyphs with all four style strings empty. -/
def ProgressBars.no_color : ProgressBar where
  left_style := ""
  left_progress := ['╸', '━']
  left_fill := '━'
  right_style := ""
  right_progress := ['─', '╶']
  right_fill := '─'
  finished_style := ""
  end_style := ""

/-- Embeds `ProgressBars.box` (tacho.py lines 393-398): block-ramp glyphs
with the default styles. -/
def ProgressBars.box : ProgressBar where
  left_style := "\x1b[1;33m"
  left_progress := [' ', '▏', '▎', '▍', '▌', '▋', '▊', '▉']
  left_fill := '█'
  right_style := "\x1b[0;34m"
  right_progress := ['·']
  right_fill := '·'
  finished_style := "\x1b[1;32m"
  end_style := "\x1b[0m"

/-- Embeds `ProgressBars.braille3` (tacho.py lines 400-405). -/
def ProgressBars.braille3 : ProgressBar where
  left_style := "\x1b[1;33m"
  left_progress := [' ', '⠄', '⠆', '⠇', '⠧', '⠷', '⠿']
  left_fill := '⠿'
  right_style := "\x1b[0;34m"
  right_progress := ['⠒', '⠒', '⠒', '⠐', '⠐', '⠐']
  right_fill := '⠒'
  finished_style := "\x1b[1;32m"
  end_style := "\x1b[0m"

/-- Embeds `ProgressBars.braille4` (tacho.py lines 407-412). -/
def ProgressBars.braille4 : ProgressBar where
  left_style := "\x1b[1;33m"
  left_progress := [' ', '⡀', '⡄', '⡆', '⡇', '⣇', '⣧', '⣷', '⣿']
  left_fill := '⣿'
  right_style := "\x1b[0;34m"
  right_progress := ['⠶', '⠶', '⠶', '⠶', '⠰', '⠰', '⠰', '⠰']
  right_fill := '⠶'
  finished_style := "\x1b[1;32m"
  end_style := "\x1b[0m"

theorem floorQ_eq_floor (q : ℚ) : floorQ q = ⌊q⌋ := by
  rw [Rat.floor_def, floorQ, Int.fdiv_eq_ediv]
  positivity

theorem metric_first_largest (v : ℚ) (l : List (String × ℚ))
    (hs : l.Pairwise (fun x y => y.2 < x.2)) :
    (inB v (metric_first v l).2 ∧ metric_first v l ∈ l ∧
      ∀ pr ∈ l, (metric_first v l).2 < pr.2 → ¬ inB v pr.2) ∨
    ((∀ pr ∈ l, ¬ inB v pr.2) ∧ metric_first v l = ("", 1)) := by
  induction l with
  | nil => exact Or.inr ⟨by simp, rfl⟩
  | cons pr rest ih =>
    rw [List.pairwise_cons] at hs
    by_cases h : inB v pr.2
    · have hsel : metric_first v (pr :: rest) = pr := by
        simp [metric_first, if_pos (show 1 < v / pr.2 ∧ v / pr.2 < 1000 from h)]
      rw [hsel]
      refine Or.inl ⟨h, List.mem_cons_self pr rest, ?_⟩
      intro q hq hlt
      rcases List.mem_cons.mp hq with rfl | hq
      · exact absurd hlt (lt_irrefl _)
      · exact absurd (hlt.trans (hs.1 q hq)) (lt_irrefl _)
    · have hskip : metric_first v (pr :: rest) = metric_first v rest := by
        simp [metric_first, if_neg (show ¬(1 < v / pr.2 ∧ v / pr.2 < 1000) from h)]
      rw [hskip]
      rcases ih hs.2 with ⟨hin, hmem, hmax⟩ | ⟨hall, hdef⟩
      · refine Or.inl ⟨hin, List.mem_cons_of_mem pr hmem, ?_⟩
        intro q hq hlt
        rcases List.mem_cons.mp hq with rfl | hq
        · exact h
        · exact hmax q hq hlt
      · refine Or.inr ⟨?_, hdef⟩
        intro q hq
        rcases List.mem_cons.mp hq with rfl | hq
        · exact h
        · exact hall q hq

theorem metric_list_sorted (b : Bool) :
    (metric_list b).Pairwise (fun x y => y.2 < x.2) := by
  cases b <;> norm_num [metric_list, List.pairwise_cons]

theorem metric_scale_largest (v : ℚ) (b : Bool) :
    (inB v (metric_scale v b).2 ∧ metric_scale v b ∈ metric_list b ∧
      ∀ pr ∈ metric_list b, (metric_scale v b).2 < pr.2 → ¬ inB v pr.2) ∨
    ((∀ pr ∈ metric_list b, ¬ inB v pr.2) ∧ metric_scale v b = ("", 1)) :=
  metric_first_largest v (metric_list b) (metric_list_sorted b)

theorem integrate_measures_length (totals new_run : List Measurement) :
    (integrate_measures totals new_run).length = totals.length := by
  simp [integrate_measures]
  omega

theorem integrate_measures_getElem_of_le (totals new_run : List Measurement)
    (i : ℕ) (hmis : new_run.length ≤ i) :
    (integrate_measures totals new_run)[i]? = totals[i]? := by
  unfold integrate_measures
  rcases le_or_lt totals.length i with hti | hti
  · rw [List.getElem?_eq_none, List.getElem?_eq_none hti]
    simp only [List.length_append, List.length_zipWith, List.length_drop]
    omega
  · have hlz : (List.zipWith
        (fun t n => { t with values := t.values ++ n.values }) totals new_run).length
        = new_run.length := by
      simp only [List.length_zipWith]
      omega
    rw [List.getElem?_append_right (by omega), hlz, List.getElem?_drop]
    congr 1
    omega

/-- Claim C1, counterexample: merging a one-reading run into a two-sample
collection raises no error and silently pairs up to the shorter length,
leaving the second sample with no appended value (value counts 2 and 1). -/
theorem C1_counterexample :
    integrate_measures
        [⟨"cycles", [1], ""⟩, ⟨"branches", [2], ""⟩] [⟨"cycles", [3], ""⟩]
      = [⟨"cycles", [1, 3], ""⟩, ⟨"branches", [2], ""⟩] ∧
    (integrate_measures
        [⟨"cycles", [1], ""⟩, ⟨"branches", [2], ""⟩] [⟨"cycles", [3], ""⟩]).map
        (fun m => m.values.length)
      = [2, 1] := by
  constructor <;> rfl

/-- Claim C1, amended: `integrate_measures` never raises an aggregation error
on a count mismatch; it silently zips the two sequences up to the shorter
length, so every sample at a position at or beyond the new run's length is
left completely unchanged (its values receive no new entry), while the sample
count is preserved. -/
theorem C1_integrate_silent_truncation (totals new_run : List Measurement)
    (i : ℕ) (hmis : new_run.length ≤ i) :
    (integrate_measures totals new_run).length = totals.length ∧
    (integrate_measures totals new_run)[i]? = totals[i]? :=
  ⟨integrate_measures_length totals new_run,
   integrate_measures_getElem_of_le totals new_run i hmis⟩

theorem C1_integrate_silent_truncation_witness :
    ([(⟨"cycles", [3], ""⟩ : Measurement)]).length ≤ 1 ∧
    ((integrate_measures
        [⟨"cycles", [1], ""⟩, ⟨"branches", [2], ""⟩] [⟨"cycles", [3], ""⟩]).length
      = ([⟨"cycles", [1], ""⟩, ⟨"branches", [2], ""⟩] : List Measurement).length ∧
     (integrate_measures
        [⟨"cycles", [1], ""⟩, ⟨"branches", [2], ""⟩] [⟨"cycles", [3], ""⟩])[1]?
      = ([⟨"cycles", [1], ""⟩, ⟨"branches", [2], ""⟩] : List Measurement)[1]?) :=
  ⟨by decide,
   C1_integrate_silent_truncation
     [⟨"cycles", [1], ""⟩, ⟨"branches", [2], ""⟩] [⟨"cycles", [3], ""⟩] 1 (by decide)⟩

/-- Claim C10: merging mutates only the value sequences: the result keeps the
sample count; each sample in the zipped range keeps its name and unit and has
exactly the corresponding new reading's values appended at the end of its
previous values; every sample at or beyond the new run's length is unchanged
in every field. -/
theorem C10_integrate_frame (totals new_run : List Measurement) (i : ℕ)
    (hi : i < totals.length) :
    (integrate_measures totals new_run).length = totals.length ∧
    (i < new_run.length →
      (integrate_measures totals new_run)[i]? =
        some { totals.getD i ⟨"", [], ""⟩ with
               values := (totals.getD i ⟨"", [], ""⟩).values
                 ++ (new_run.getD i ⟨"", [], ""⟩).values }) ∧
    (new_run.length ≤ i →
      (integrate_measures totals new_run)[i]? = totals[i]?) := by
  refine ⟨integrate_measures_length totals new_run, ?_,
    integrate_measures_getElem_of_le totals new_run i⟩
  intro hin
  unfold integrate_measures
  rw [List.getElem?_append_left (by simp only [List.length_zipWith]; omega),
    List.getElem?_zipWith]
  rw [List.getElem?_eq_getElem hi, List.getElem?_eq_getElem hin,
    List.getD_eq_getElem _ _ hi, List.getD_eq_getElem _ _ hin]

theorem C10_integrate_frame_witness :
    (0 : ℕ) < 2 ∧
    ((integrate_measures
        [⟨"cycles", [1], ""⟩, ⟨"branches", [2], ""⟩] [⟨"cycles", [3], ""⟩]).length
      = ([⟨"cycles", [1], ""⟩, ⟨"branches", [2], ""⟩] : List Measurement).length ∧
     (0 < ([(⟨"cycles", [3], ""⟩ : Measurement)]).length →
      (integrate_measures
          [⟨"cycles", [1], ""⟩, ⟨"branches", [2], ""⟩] [⟨"cycles", [3], ""⟩])[0]? =
        some { ([⟨"cycles", [1], ""⟩, ⟨"branches", [2], ""⟩] :
                 List Measurement).getD 0 ⟨"", [], ""⟩ with
               values := (([⟨"cycles", [1], ""⟩, ⟨"branches", [2], ""⟩] :
                 List Measurement).getD 0 ⟨"", [], ""⟩).values
                 ++ (([(⟨"cycles", [3], ""⟩ : Measurement)]).getD 0 ⟨"", [], ""⟩).values }) ∧
     (([(⟨"cycles", [3], ""⟩ : Measurement)]).length ≤ 0 →
      (integrate_measures
          [⟨"cycles", [1], ""⟩, ⟨"branches", [2], ""⟩] [⟨"cycles", [3], ""⟩])[0]?
        = ([⟨"cycles", [1], ""⟩, ⟨"branches", [2], ""⟩] : List Measurement)[0]?)) :=
  ⟨by decide,
   C10_integrate_frame
     [⟨"cycles", [1], ""⟩, ⟨"branches", [2], ""⟩] [⟨"cycles", [3], ""⟩] 0 (by decide)⟩

/-- Claim C2 (code bug evidence): with the default 3-second budget the
run-count planning step at a zero measured initial-run duration performs a
raw division by zero (Python ZeroDivisionError, modelled as `none`); there
is no epsilon guard in the code.  For any positive duration the step is
defined, e.g. at one microsecond. -/
theorem C2_zero_duration_fault :
    num_runs_plan 3 0 10 sys_maxsize none = none ∧
    num_runs_plan 3 (1 / 1000000) 10 sys_maxsize none = some 3000000 := by
  constructor
  · rfl
  · norm_num [num_runs_plan, clamp, pyInt, sys_maxsize]

/-- Claim C3: for every positive measured duration `d` and no explicit run
count, the planned number of additional runs is
`clamp(int(total_seconds / d), min_runs - 1, max_runs)`; as long as
`min_runs - 1 ≤ max_runs` that value lies between the two bounds; and at the
spec's instance (budget 3.0, d = 0.5, min_runs 10, unbounded max) exactly 9
additional runs are planned. -/
theorem C3_run_count_estimate (total_seconds d : ℚ) (min_runs max_runs : ℤ)
    (hd : 0 < d) (hlh : min_runs - 1 ≤ max_runs) :
    num_runs_plan total_seconds d min_runs max_runs none =
      some (clamp (pyInt (total_seconds / d)) (min_runs - 1) max_runs) ∧
    min_runs - 1 ≤ clamp (pyInt (total_seconds / d)) (min_runs - 1) max_runs ∧
    clamp (pyInt (total_seconds / d)) (min_runs - 1) max_runs ≤ max_runs ∧
    num_runs_plan 3 (1 / 2) 10 sys_maxsize none = some 9 := by
  refine ⟨?_, le_max_left _ _, max_le hlh (min_le_right _ _), ?_⟩
  · simp [num_runs_plan, hd.ne']
  · norm_num [num_runs_plan, clamp, pyInt, sys_maxsize]

theorem C3_run_count_estimate_witness :
    (0 : ℚ) < 1 / 2 ∧ (10 : ℤ) - 1 ≤ sys_maxsize ∧
    (num_runs_plan 3 (1 / 2) 10 sys_maxsize none =
      some (clamp (pyInt (3 / (1 / 2))) (10 - 1) sys_maxsize) ∧
     10 - 1 ≤ clamp (pyInt (3 / (1 / 2))) (10 - 1) sys_maxsize ∧
     clamp (pyInt (3 / (1 / 2))) (10 - 1) sys_maxsize ≤ sys_maxsize ∧
     num_runs_plan 3 (1 / 2) 10 sys_maxsize none = some 9) :=
  ⟨by norm_num, by norm_num [sys_maxsize],
   C3_run_count_estimate 3 (1 / 2) 10 sys_maxsize (by norm_num)
     (by norm_num [sys_maxsize])⟩

/-- Claim C7: `eta` rounds to the nearest integer second, decomposes greedily
with the constants year = 31556952 s, month = 2629746 s, day = 86400 s,
hour = 3600 s, minute = 60 s, and produces exactly the spec's literal table
of nine formatted durations. -/
theorem C7_eta_table :
    eta (499 / 1000) "" "" = "00:00" ∧
    eta (500001 / 1000000) "" "" = "00:01" ∧
    eta 3599 "" "" = "59:59" ∧
    eta 3600 "" "" = "1:00:00" ∧
    eta 86399 "" "" = "23:59:59" ∧
    eta 86400 "" "" = "1D 0:00:00" ∧
    eta 2629745 "" "" = "30D 10:29:05" ∧
    eta 2629746 "" "" = "1M 0D 0:00:00" ∧
    eta 1000000000 "" "" = "31Y 8M 8D 1:28:40" := by
  refine ⟨?_, ?_, ?_, ?_, ?_, ?_, ?_, ?_, ?_⟩ <;>
    [rw [eta, show pyRound (499 / 1000) = 0 by norm_num [pyRound, floorQ_eq_floor]];
     rw [eta, show pyRound (500001 / 1000000) = 1 by norm_num [pyRound, floorQ_eq_floor]];
     rw [eta, show pyRound 3599 = 3599 by norm_num [pyRound, floorQ_eq_floor]];
     rw [eta, show pyRound 3600 = 3600 by norm_num [pyRound, floorQ_eq_floor]];
     rw [eta, show pyRound 86399 = 86399 by norm_num [pyRound, floorQ_eq_floor]];
     rw [eta, show pyRound 86400 = 86400 by norm_num [pyRound, floorQ_eq_floor]];
     rw [eta, show pyRound 2629745 = 2629745 by norm_num [pyRound, floorQ_eq_floor]];
     rw [eta, show pyRound 2629746 = 2629746 by norm_num [pyRound, floorQ_eq_floor]];
     rw [eta, show pyRound 1000000000 = 1000000000 by
       norm_num [pyRound, floorQ_eq_floor]]] <;>
    decide

/-- Claim C6: SI-prefix selection returns the largest-power table entry whose
power puts `value / power` strictly inside `(1, 1000)` (and `("", 1)` when no
entry qualifies); with an empty unit (`use_below_1 = len(unit) != 0` in
`format_stat`) the table holds only powers `≥ 1`, so the chosen power is
never below 1; mean 1500 with a non-empty unit yields prefix "k" and scaled
value 1.5, mean 0.0005 yields "µ", and mean 1500 with an empty unit yields
"k" as well (never a sub-1 prefix). -/
theorem C6_metric_scale_selection (v : ℚ) (b : Bool) :
    ((inB v (metric_scale v b).2 ∧ metric_scale v b ∈ metric_list b ∧
        ∀ pr ∈ metric_list b, (metric_scale v b).2 < pr.2 → ¬ inB v pr.2) ∨
      ((∀ pr ∈ metric_list b, ¬ inB v pr.2) ∧ metric_scale v b = ("", 1))) ∧
    1 ≤ (metric_scale v (format_use_below_1 "")).2 ∧
    metric_scale 1500 true = ("k", 1000) ∧
    1500 / (metric_scale 1500 true).2 = 3 / 2 ∧
    metric_scale (5 / 10000) true = ("µ", 1 / 10 ^ 6) ∧
    metric_scale 1500 false = ("k", 1000) := by
  refine ⟨metric_scale_largest v b, ?_, ?_, ?_, ?_, ?_⟩
  · have hfb : format_use_below_1 "" = false := rfl
    rw [hfb]
    rcases metric_scale_largest v false with ⟨_, hmem, _⟩ | ⟨_, heq⟩
    · simp only [metric_list, Bool.false_eq_true, if_false, List.append_nil,
        List.mem_cons, List.not_mem_nil, or_false] at hmem
      rcases hmem with h | h | h | h | h <;> rw [h] <;> norm_num
    · rw [heq]
  · norm_num [metric_scale, metric_list, metric_first]
  · norm_num [metric_scale, metric_list, metric_first]
  · norm_num [metric_scale, metric_list, metric_first]
  · norm_num [metric_scale, metric_list, metric_first]

/-- Claim C4 (code bug evidence): an explicit run count R = 1 plans
R - 1 = 0 additional runs, and the measuring loop then runs zero iterations,
so the final render after the loop reads the never-bound loop variable `r`
and raises NameError (modelled as `none`): no Done render is emitted.  With
R = 2 the loop performs exactly 1 additional run and the final render
succeeds. -/
theorem C4_explicit_one_run_crash :
    num_runs_plan 3 (1 / 2) 10 sys_maxsize (some 1) = some 0 ∧
    measure_tail [] (fun _ => []) 0 = none ∧
    measure_tail [] (fun _ => []) ((2 : ℤ) - 1) = some ([], 1) := by
  refine ⟨?_, rfl, rfl⟩
  norm_num [num_runs_plan, clamp, pyInt, sys_maxsize]

theorem pyRound_nonneg (q : ℚ) (h : 0 ≤ q) : 0 ≤ pyRound q := by
  unfold pyRound
  simp only [floorQ_eq_floor]
  have h0 : (0 : ℤ) ≤ ⌊q⌋ := Int.floor_nonneg.mpr h
  split_ifs <;> omega

theorem pyRound_le (q : ℚ) (n : ℤ) (h : q ≤ n) : pyRound q ≤ n := by
  unfold pyRound
  simp only [floorQ_eq_floor]
  have h1 : ⌊q⌋ ≤ n := by
    have h2 := Int.floor_le_floor h
    simpa using h2
  have hflt : (1 : ℚ) / 2 ≤ q - ⌊q⌋ → ⌊q⌋ < n := by
    intro hq
    have h2 : (⌊q⌋ : ℚ) < (n : ℚ) := by linarith
    exact_mod_cast h2
  split_ifs with ha hb hc
  · exact h1
  · have := hflt (by linarith)
    omega
  · exact h1
  · have := hflt (not_lt.mp ha)
    omega

theorem num_full_le (p : ℚ) (w L : ℕ) (hp0 : 0 ≤ p) (hp1 : p ≤ 1) (hL : 0 < L) :
    (calc_num_full_and_progress_idx p w L).1.toNat ≤ w := by
  unfold calc_num_full_and_progress_idx
  simp only []
  rw [Int.toNat_le]
  have hpr : pyRound (p * ((w : ℚ) * L)) ≤ ((w : ℤ) * L) := by
    apply pyRound_le
    push_cast
    have := mul_le_of_le_one_left (by positivity : (0 : ℚ) ≤ (w : ℚ) * L) hp1
    linarith
  rw [Int.fdiv_eq_ediv _ (by positivity)]
  calc pyRound (p * ((w : ℚ) * L)) / (L : ℤ)
      ≤ ((w : ℤ) * L) / (L : ℤ) := Int.ediv_le_ediv (by exact_mod_cast hL) hpr
    _ = (w : ℤ) := Int.mul_ediv_cancel _ (by exact_mod_cast hL.ne')

theorem render_body_length (b : ProgressBar) (p : ℚ) (w : ℕ)
    (h : (calc_num_full_and_progress_idx p w b.left_progress.length).1.toNat ≤ w) :
    (render_body b p w).1.length + (render_body b p w).2.length = w := by
  unfold render_body
  simp only []
  split_ifs <;> simp_all [List.length_replicate, List.length_append] <;> omega

theorem render_full (b : ProgressBar) (p : ℚ) (w : ℕ) (hp : 1 ≤ p) :
    b.render p w =
      b.finished_style ++ String.mk (List.replicate w b.left_fill) ++ b.end_style := by
  unfold ProgressBar.render
  rw [if_neg (by linarith : ¬ p ≤ 0), if_pos hp]

theorem render_at_zero (b : ProgressBar) (w : ℕ) (hw : 1 ≤ w) (p : ℚ) (hp : p ≤ 0) :
    b.render p w =
      b.left_style ++ String.mk [b.left_progress.getD 0 ' '] ++ b.right_style
        ++ String.mk (if 2 ≤ w then
            b.right_progress.getD 0 ' ' :: List.replicate (w - 2) b.right_fill else [])
        ++ b.end_style := by
  unfold ProgressBar.render
  rw [if_pos hp, if_neg (by norm_num : ¬ (1 : ℚ) ≤ 0)]
  have hcalc : ∀ L : ℕ, calc_num_full_and_progress_idx 0 w L = (0, 0) := by
    intro L
    unfold calc_num_full_and_progress_idx
    have hz : pyRound 0 = 0 := by norm_num [pyRound, floorQ_eq_floor]
    simp [zero_mul, hz, Int.zero_fdiv, Int.zero_fmod]
  unfold render_body
  simp only [hcalc, Int.toNat_zero, List.replicate_zero, List.length_nil,
    List.nil_append]
  rw [if_pos (by omega : 0 < w)]
  simp only [List.length_singleton]
  by_cases h2 : 2 ≤ w
  · rw [if_pos h2, if_pos (show 1 < w by omega)]
    simp only [List.length_singleton]
    by_cases h3 : 1 + 1 < w
    · rw [if_pos h3]
      simp only [List.singleton_append]
    · rw [if_neg h3]
      have hw2 : w = 2 := by omega
      subst hw2
      norm_num
  · rw [if_neg h2]
    have hw1 : w = 1 := by omega
    subst hw1
    norm_num

/-- Claim C8: for every width 1 ≤ W ≤ 200 and fraction p ∈ [0, 1], the
rendered progress bar, with the styling escape strings ignored (all four
style fields empty, as in the `no_color` preset — every preset shares the
same glyph logic) and non-empty glyph ramps as in every preset, consists of
exactly W glyph characters. -/
theorem C8_render_glyph_width (b : ProgressBar)
    (h1 : b.left_style = "") (h2 : b.right_style = "")
    (h3 : b.finished_style = "") (h4 : b.end_style = "")
    (hlp : 0 < b.left_progress.length) (hrp : 0 < b.right_progress.length)
    (w : ℕ) (hw1 : 1 ≤ w) (hw2 : w ≤ 200) (p : ℚ) (hp0 : 0 ≤ p) (hp1 : p ≤ 1) :
    (b.render p w).length = w := by
  unfold ProgressBar.render
  set q : ℚ := if p ≤ 0 then 0 else p with hq
  have hq0 : 0 ≤ q := by
    rw [hq]
    split_ifs
    · exact le_rfl
    · exact hp0
  have hq1 : q ≤ 1 := by
    rw [hq]
    split_ifs
    · exact zero_le_one
    · exact hp1
  dsimp only
  split_ifs with hc
  · rw [h3, h4]
    simp
  · rw [h1, h2, h4]
    have hnf := num_full_le q w b.left_progress.length hq0 hq1 hlp
    have hlen := render_body_length b q w hnf
    simp only [String.length_append, String.length_mk, String.length_empty]
    omega

theorem C8_render_glyph_width_witness :
    ProgressBars.no_color.left_style = "" ∧
    0 < ProgressBars.no_color.left_progress.length ∧
    (1 : ℕ) ≤ 80 ∧ (80 : ℕ) ≤ 200 ∧ (0 : ℚ) ≤ 1 / 4 ∧ (1 : ℚ) / 4 ≤ 1 ∧
    (ProgressBars.no_color.render (1 / 4) 80).length = 80 :=
  ⟨rfl, by decide, by norm_num, by norm_num, by norm_num, by norm_num,
   C8_render_glyph_width ProgressBars.no_color rfl rfl rfl rfl (by decide) (by decide)
     80 (by norm_num) (by norm_num) (1 / 4) (by norm_num) (by norm_num)⟩

/-- Claim C9, counterexample: at fraction 0 and width 2 the default-glyph bar
(`no_color`, no styling) renders "╸─" — the first glyph is the zero-subtick
left-ramp glyph, not the "empty" right-fill glyph — so `p ≤ 0` does not
render as W copies of the empty glyph. -/
theorem C9_counterexample :
    ProgressBars.no_color.render 0 2 = "╸─" ∧
    ProgressBars.no_color.render 0 2
      ≠ String.mk (List.replicate 2 ProgressBars.no_color.right_fill) := by
  have h := render_at_zero ProgressBars.no_color 2 (by norm_num) 0 le_rfl
  rw [h]
  exact ⟨by decide, by decide⟩

/-- Claim C9, amended: a fraction p ≤ 0 is clamped to 0 and rendered through
the normal interpolation — one zero-subtick left-ramp glyph, then (when
W ≥ 2) one zero-subtick right-ramp glyph and W − 2 right-fill glyphs — not
as W copies of the right-fill ("empty") glyph; a fraction p ≥ 1 renders as W
copies of the left-fill glyph in the finished style, bypassing all
interpolation. -/
theorem C9_zero_and_full_render (b : ProgressBar) (w : ℕ) (hw : 1 ≤ w) (p : ℚ) :
    (p ≤ 0 → b.render p w = b.render 0 w ∧
      b.render p w =
        b.left_style ++ String.mk [b.left_progress.getD 0 ' '] ++ b.right_style
          ++ String.mk (if 2 ≤ w then
              b.right_progress.getD 0 ' ' :: List.replicate (w - 2) b.right_fill else [])
          ++ b.end_style) ∧
    (1 ≤ p → b.render p w =
      b.finished_style ++ String.mk (List.replicate w b.left_fill) ++ b.end_style) := by
  refine ⟨fun hp => ⟨?_, render_at_zero b w hw p hp⟩, fun hp => render_full b p w hp⟩
  rw [render_at_zero b w hw p hp, render_at_zero b w hw 0 le_rfl]

theorem C9_zero_and_full_render_witness :
    (1 : ℕ) ≤ 3 ∧
    (((-1 : ℚ) ≤ 0 → ProgressBars.box.render (-1) 3 = ProgressBars.box.render 0 3 ∧
      ProgressBars.box.render (-1) 3 =
        ProgressBars.box.left_style
          ++ String.mk [ProgressBars.box.left_progress.getD 0 ' ']
          ++ ProgressBars.box.right_style
          ++ String.mk (if 2 ≤ 3 then
              ProgressBars.box.right_progress.getD 0 ' '
                :: List.replicate (3 - 2) ProgressBars.box.right_fill else [])
          ++ ProgressBars.box.end_style) ∧
     (1 ≤ (-1 : ℚ) → ProgressBars.box.render (-1) 3 =
        ProgressBars.box.finished_style
          ++ String.mk (List.replicate 3 ProgressBars.box.left_fill)
          ++ ProgressBars.box.end_style)) :=
  ⟨by norm_num, C9_zero_and_full_render ProgressBars.box 3 (by norm_num) (-1)⟩

/-- Claim C5, counterexample: the accepted report line `"5,,cycles,0.5"` has
an empty unit field and a non-duration metric name, and the parser produces
unit `""`, not the literal `"count"`. -/
theorem C5_counterexample :
    parse_perf_stat_csv "5,,cycles,0.5" ',' = [⟨"cycles", [5], ""⟩] ∧
    (parse_perf_stat_csv "5,,cycles,0.5" ',').map Measurement.unit = [""] ∧
    (parse_perf_stat_csv "5,,cycles,0.5" ',').map Measurement.unit ≠ ["count"] := by
  have h : parse_perf_stat_csv "5,,cycles,0.5" ',' = [⟨"cycles", [Rat.divInt 5 1], ""⟩] := by
    decide
  have h5 : Rat.divInt 5 1 = (5 : ℚ) := by
    rw [Rat.divInt_eq_div]
    norm_num
  rw [h, h5]
  refine ⟨rfl, rfl, by decide⟩

/-- Claim C5, amended: for every accepted report line whose unit field
(field 1) is empty and whose metric name is not the wall-clock
`duration_time` event, the parsed Measurement carries the empty unit string
`""` — the empty unit is kept verbatim (and only interpreted as a count
downstream), never rewritten to the literal `"count"`. -/
theorem C5_empty_unit_kept (sep : Char) (line : List Char) (m : Measurement)
    (hm : parse_line sep line = some m)
    (hunit : (splitByChar sep line).getD 1 [] = [])
    (hname : String.mk ((splitByChar sep line).getD 2 []) ≠ "duration_time") :
    m.unit = "" := by
  unfold parse_line at hm
  simp only [hunit] at hm
  cases hpf : pyFloat ((splitByChar sep line).getD 0 []) with
  | none =>
    simp only [hpf, ite_self] at hm
    exact Option.noConfusion hm
  | some v =>
    simp only [hpf] at hm
    have hdt : ¬(({ data := (splitByChar sep line).getD 2 [] } : String) = "duration_time"
        ∧ True) := fun hc => hname hc.1
    have hns : ¬(({ data := ([] : List Char) } : String) = "ns") := by decide
    have hmsec : ¬(({ data := ([] : List Char) } : String) = "msec") := by decide
    rw [if_neg hdt, if_neg hns, if_neg hmsec] at hm
    split_ifs at hm
    have hx := Option.some.inj hm
    subst hx
    rfl

theorem C5_empty_unit_kept_witness :
    parse_line ',' ("5,,cycles,0.5".data) = some ⟨"cycles", [Rat.divInt 5 1], ""⟩ ∧
    (splitByChar ',' ("5,,cycles,0.5".data)).getD 1 [] = [] ∧
    String.mk ((splitByChar ',' ("5,,cycles,0.5".data)).getD 2 []) ≠ "duration_time" ∧
    (⟨"cycles", [Rat.divInt 5 1], ""⟩ : Measurement).unit = "" :=
  ⟨by decide, by decide, by decide,
   C5_empty_unit_kept ',' ("5,,cycles,0.5".data) ⟨"cycles", [Rat.divInt 5 1], ""⟩
     (by decide) (by decide) (by decide)⟩

end Tacho
